import Mathlib

/-!
Verification of the payroll core of the yc6002-payroll repository:
contract pay strategies and the London weighting decorator (domain.py),
the strategy resolver and payroll orchestrator (payroll_service.py),
and the repository selection logic (repositories.py).

Python floats are modelled as rationals; dates (stored as ISO strings,
whose lexicographic order is the date order) are modelled as naturals;
`Optional` fields become `Option`; `ValueError` becomes `Except String`.
SQLite storage is modelled as lists of records.
-/

namespace Payroll

/-- Python's `str.upper()` as used by the service layer, modelled as the
uppercase map over the string's characters (structurally, so that proofs
can evaluate it on concrete inputs). -/
def strUpper (s : String) : String :=
  ⟨s.data.map Char.toUpper⟩

/-- Employee record, from the dataclass in domain.py. -/
structure Employee where
  id : Option Nat
  first_name : String
  last_name : String
  address : String
  start_date : Nat
  ni_number : String
  department : String
  branch : String
  contract_type : String
deriving Repr, DecidableEq

/-- Contract record, from the dataclass in domain.py. -/
structure Contract where
  id : Option Nat
  employee_id : Nat
  base_salary : Option ℚ
  hourly_rate : Option ℚ
  contract_hours : Option ℚ
  effective_from : Nat
  effective_to : Option Nat
deriving Repr, DecidableEq

/-- PayrollRun record, from the dataclass in domain.py. -/
structure PayrollRun where
  id : Option Nat
  employee_id : Option Nat
  pay_period_start : Nat
  pay_period_end : Nat
  hours_worked : ℚ
  gross_pay : ℚ
  london_weighting_applied : Bool
deriving Repr, DecidableEq

/-- The closed set of strategy objects the service layer can build:
the three concrete `BaseContractStrategy` subclasses of domain.py, plus
the `LondonWeightingDecorator` wrapping an inner strategy. Each variant
carries exactly the constructor arguments of the Python class. -/
inductive BaseContractStrategy where
  | salaried (base_salary : ℚ)
  | partTime (base_salary hourly_rate contract_hours : ℚ)
  | hourly (hourly_rate : ℚ)
  | londonWeighting (inner : BaseContractStrategy)
deriving Repr, DecidableEq

/-- The `calculate_gross_pay` capability, dispatched over the strategy:
  * SalariedStrategy: `return self.base_salary`;
  * PartTimeStrategy: `overtime_hours = max(0.0, hours_worked - contract_hours);
    overtime_pay = overtime_hours * hourly_rate * 2.5;
    return base_salary + overtime_pay`;
  * HourlyStrategy: `regular_hours = min(hours_worked, 37.0);
    overtime_hours = max(0.0, hours_worked - 37.0);
    return regular_hours * rate + overtime_hours * rate * 2.5`;
  * LondonWeightingDecorator: `return inner.calculate_gross_pay(h) * 1.2`. -/
def calculate_gross_pay : BaseContractStrategy → ℚ → ℚ
  | .salaried base_salary, _ => base_salary
  | .partTime base_salary hourly_rate contract_hours, hours_worked =>
      base_salary + max 0 (hours_worked - contract_hours) * hourly_rate * 2.5
  | .hourly hourly_rate, hours_worked =>
      min hours_worked 37 * hourly_rate
        + max 0 (hours_worked - 37) * hourly_rate * 2.5
  | .londonWeighting inner, hours_worked =>
      calculate_gross_pay inner hours_worked * 1.2

/-- First stage of `create_contract_strategy_for_employee` in
payroll_service.py: interpret `employee.contract_type.upper()` and build
the bare strategy, raising `ValueError` (modelled as `Except.error`) when
a required contract field is absent or the type is unknown. -/
def resolve_base_strategy (employee : Employee) (contract : Contract) :
    Except String BaseContractStrategy :=
  if strUpper employee.contract_type = "SALARIED" then
    match contract.base_salary with
    | none => Except.error ("Base salary is required for salaried contract.")
    | some base_salary => Except.ok (BaseContractStrategy.salaried base_salary)
  else if strUpper employee.contract_type = "PART_TIME" then
    match contract.base_salary, contract.hourly_rate, contract.contract_hours with
    | some base_salary, some hourly_rate, some contract_hours =>
        Except.ok (BaseContractStrategy.partTime base_salary hourly_rate contract_hours)
    | _, _, _ =>
        Except.error
          ("Base salary, hourly rate and contract hours are required for part-time contract.")
  else if strUpper employee.contract_type = "HOURLY" then
    match contract.hourly_rate with
    | none => Except.error ("Hourly rate is required for hourly contract.")
    | some hourly_rate => Except.ok (BaseContractStrategy.hourly hourly_rate)
  else
    Except.error ("Unknown contract type: " ++ strUpper employee.contract_type)

/-- Model of `create_contract_strategy_for_employee` from payroll_service.py:
build the bare strategy for the contract type, then wrap it in the
London weighting decorator when `employee.branch.upper() == "LONDON"`. -/
def create_contract_strategy_for_employee (employee : Employee) (contract : Contract) :
    Except String BaseContractStrategy :=
  match resolve_base_strategy employee contract with
  | Except.error msg => Except.error msg
  | Except.ok strategy =>
      if strUpper employee.branch = "LONDON" then
        Except.ok (BaseContractStrategy.londonWeighting strategy)
      else
        Except.ok strategy

/-- The relational store as seen through the repositories: the rows of the
employees, contracts and payroll_runs tables. -/
structure Storage where
  employees : List Employee
  contracts : List Contract
  payroll_runs : List PayrollRun
deriving Repr, DecidableEq

/-- Model of `EmployeeRepository.get`: `SELECT * FROM employees WHERE id = ?`,
first matching row or absent. -/
def employee_get (s : Storage) (employee_id : Nat) : Option Employee :=
  s.employees.find? (fun e => e.id = some employee_id)

/-- Accumulator step of the `ORDER BY effective_from DESC LIMIT 1` query of
`ContractRepository.get_active_for_employee`: keep the row with the larger
`effective_from` (on ties the row already held, matching one admissible
SQL ordering; ties are unspecified in the source). -/
def pickLatest (acc : Option Contract) (c : Contract) : Option Contract :=
  match acc with
  | none => some c
  | some best => if best.effective_from < c.effective_from then some c else some best

/-- Model of `ContractRepository.get_active_for_employee`:
`SELECT * FROM contracts WHERE employee_id = ? ORDER BY effective_from DESC
LIMIT 1` — among the employee's contracts, one with maximal
`effective_from`, or absent when the employee has none. No date parameter
is taken and `effective_to` is not consulted. -/
def get_active_for_employee (s : Storage) (employee_id : Nat) : Option Contract :=
  ((s.contracts.filter (fun c => c.employee_id = employee_id)).foldl pickLatest none)

/-- Model of `PayrollRunRepository.add`: append the row; the id assigned by
SQLite AUTOINCREMENT is modelled as one past the current row count. -/
def payroll_run_add (s : Storage) (run : PayrollRun) : Nat × Storage :=
  let run_id := s.payroll_runs.length + 1
  (run_id, { s with payroll_runs := s.payroll_runs ++ [{ run with id := some run_id }] })

/-- Model of `PayrollService.run_payroll_for_employee`: look up the employee
(`ValueError` if absent), look up the active contract (`ValueError` if
absent), resolve the strategy (propagating its errors), compute gross pay,
recompute the London flag from the branch, build the PayrollRun and
persist it, returning the run populated with the assigned id. The storage
is returned alongside the outcome; every failing path leaves it unchanged. -/
def run_payroll_for_employee (s : Storage) (employee_id : Nat) (hours_worked : ℚ)
    (pay_period_start pay_period_end : Nat) : Except String PayrollRun × Storage :=
  match employee_get s employee_id with
  | none =>
      (Except.error ("Employee with id " ++ toString employee_id ++ " not found."), s)
  | some employee =>
      match get_active_for_employee s employee_id with
      | none =>
          (Except.error ("No active contract found for employee "
            ++ toString employee_id ++ "."), s)
      | some contract =>
          match create_contract_strategy_for_employee employee contract with
          | Except.error msg => (Except.error msg, s)
          | Except.ok strategy =>
              let gross_pay := calculate_gross_pay strategy hours_worked
              let london_weighting_applied :=
                decide (strUpper employee.branch = "LONDON")
              let payroll_run : PayrollRun :=
                { id := none
                  employee_id := employee.id
                  pay_period_start := pay_period_start
                  pay_period_end := pay_period_end
                  hours_worked := hours_worked
                  gross_pay := gross_pay
                  london_weighting_applied := london_weighting_applied }
              let added := payroll_run_add s payroll_run
              (Except.ok { payroll_run with id := some added.fst }, added.snd)

/-- A strategy object whose outermost layer is the London weighting
decorator. -/
def isWeighted : BaseContractStrategy → Bool
  | .londonWeighting _ => true
  | _ => false

/-- Fixture: a contract for employee 1 effective from date 10. -/
def contractOld : Contract :=
  { id := some 1, employee_id := 1, base_salary := none, hourly_rate := none,
    contract_hours := none, effective_from := 10, effective_to := none }

/-- Fixture: a contract for employee 1 effective from date 100. -/
def contractNew : Contract :=
  { id := some 2, employee_id := 1, base_salary := none, hourly_rate := none,
    contract_hours := none, effective_from := 100, effective_to := none }

/-- Fixture: a store holding only the two contracts of employee 1. -/
def twoContractStore : Storage :=
  { employees := [], contracts := [contractOld, contractNew], payroll_runs := [] }

/-- Fixture: a London-branch salaried employee. -/
def londonEmployee : Employee :=
  { id := some 1, first_name := "Ada", last_name := "Smith",
    address := "1 Example Road", start_date := 0, ni_number := "QQ123456C",
    department := "Sales", branch := "London", contract_type := "SALARIED" }

/-- Fixture: a salaried contract for employee 1 with base salary 2000. -/
def salariedContract : Contract :=
  { id := some 1, employee_id := 1, base_salary := some 2000,
    hourly_rate := none, contract_hours := none,
    effective_from := 10, effective_to := none }

/-- Fixture: a store with the London employee and their contract. -/
def londonStore : Storage :=
  { employees := [londonEmployee], contracts := [salariedContract],
    payroll_runs := [] }

/-- Fixture: the run produced by paying the London employee zero hours
for period 100-130: salaried 2000 with the 20% uplift gives 2400 and the
weighting flag set. -/
def londonRun : PayrollRun :=
  { id := some 1, employee_id := some 1, pay_period_start := 100,
    pay_period_end := 130, hours_worked := 0, gross_pay := 2000 * 1.2,
    london_weighting_applied := true }

/-- Fixture: the store after persisting `londonRun`. -/
def londonStoreAfter : Storage :=
  { londonStore with payroll_runs := [londonRun] }

/-- Fixture: an employee declaring the unrecognized contract type
CONTRACTOR. -/
def contractorEmployee : Employee :=
  { id := some 3, first_name := "Cleo", last_name := "Brown",
    address := "3 High Street", start_date := 0, ni_number := "QQ111111B",
    department := "Sales", branch := "Yeovil",
    contract_type := "CONTRACTOR" }

/-- Fixture: a Yeovil-branch hourly employee. -/
def yeovilEmployee : Employee :=
  { id := some 2, first_name := "Bob", last_name := "Jones",
    address := "2 Sample Lane", start_date := 0, ni_number := "QQ654321A",
    department := "Repairs", branch := "Yeovil", contract_type := "HOURLY" }

/-- Fixture: an hourly contract for employee 2 at rate 10. -/
def hourlyContract : Contract :=
  { id := some 3, employee_id := 2, base_salary := none,
    hourly_rate := some 10, contract_hours := none,
    effective_from := 5, effective_to := none }

/-- Fixture: a store with the Yeovil employee and their hourly contract. -/
def yeovilStore : Storage :=
  { employees := [yeovilEmployee], contracts := [hourlyContract],
    payroll_runs := [] }

/-- Claim C1: for every part-time contract (base_salary, hourly_rate,
contract_hours all present and non-negative) and every hours_worked,
`PartTimeStrategy.calculate_gross_pay(hours_worked)` equals
base_salary + max(0, hours_worked - contract_hours) * hourly_rate * 2.5. -/
theorem C1_part_time_gross_pay
    (base_salary hourly_rate contract_hours hours_worked : ℚ)
    (hb : 0 ≤ base_salary) (hr : 0 ≤ hourly_rate) (hc : 0 ≤ contract_hours) :
    calculate_gross_pay
        (BaseContractStrategy.partTime base_salary hourly_rate contract_hours)
        hours_worked
      = base_salary + max 0 (hours_worked - contract_hours) * hourly_rate * 2.5 :=
  rfl

/-- Witness for C1 at base_salary 100, hourly_rate 12, contract_hours 20,
hours_worked 25. -/
theorem C1_part_time_gross_pay_witness :
    (0 : ℚ) ≤ 100 ∧ (0 : ℚ) ≤ 12 ∧ (0 : ℚ) ≤ 20 ∧
    calculate_gross_pay (BaseContractStrategy.partTime 100 12 20) 25
      = 100 + max 0 (25 - 20) * 12 * 2.5 :=
  ⟨by norm_num, by norm_num, by norm_num,
    C1_part_time_gross_pay 100 12 20 25 (by norm_num) (by norm_num) (by norm_num)⟩

/-- Claim C2: for every hourly contract (hourly_rate present and
non-negative) and every hours_worked,
`HourlyStrategy.calculate_gross_pay(hours_worked)` equals
min(hours_worked, 37) * rate + max(0, hours_worked - 37) * rate * 2.5; at
hours_worked = 37 it equals 37 * rate and at hours_worked = 40 it equals
37*rate + 3*rate*2.5. -/
theorem C2_hourly_gross_pay (hourly_rate hours_worked : ℚ) (hr : 0 ≤ hourly_rate) :
    calculate_gross_pay (BaseContractStrategy.hourly hourly_rate) hours_worked
      = min hours_worked 37 * hourly_rate
        + max 0 (hours_worked - 37) * hourly_rate * 2.5
    ∧ calculate_gross_pay (BaseContractStrategy.hourly hourly_rate) 37
      = 37 * hourly_rate
    ∧ calculate_gross_pay (BaseContractStrategy.hourly hourly_rate) 40
      = 37 * hourly_rate + 3 * hourly_rate * 2.5 := by
  refine ⟨rfl, ?_, ?_⟩
  · simp only [calculate_gross_pay]
    norm_num
  · simp only [calculate_gross_pay]
    norm_num

/-- Witness for C2 at hourly_rate 10. -/
theorem C2_hourly_gross_pay_witness :
    (0 : ℚ) ≤ 10 ∧
    (calculate_gross_pay (BaseContractStrategy.hourly 10) 40
        = min 40 37 * 10 + max 0 (40 - 37) * 10 * 2.5
      ∧ calculate_gross_pay (BaseContractStrategy.hourly 10) 37 = 37 * 10
      ∧ calculate_gross_pay (BaseContractStrategy.hourly 10) 40
        = 37 * 10 + 3 * 10 * 2.5) :=
  ⟨by norm_num, C2_hourly_gross_pay 10 40 (by norm_num)⟩

/-- Claim C3: for every salaried contract with base_salary present and
for every hours_worked (e.g. 0, 37, 200),
`SalariedStrategy.calculate_gross_pay(hours_worked)` equals base_salary;
the hours_worked argument has no effect on the result. -/
theorem C3_salaried_gross_pay (base_salary hours_worked : ℚ) :
    calculate_gross_pay (BaseContractStrategy.salaried base_salary) hours_worked
      = base_salary
    ∧ calculate_gross_pay (BaseContractStrategy.salaried base_salary) 0
      = base_salary
    ∧ calculate_gross_pay (BaseContractStrategy.salaried base_salary) 37
      = base_salary
    ∧ calculate_gross_pay (BaseContractStrategy.salaried base_salary) 200
      = base_salary :=
  ⟨rfl, rfl, rfl, rfl⟩

/-- Claim C4: for every strategy s and every hours_worked h, wrapping s in
the London weighting decorator yields exactly 1.20 times the unwrapped
result, through the same `calculate_gross_pay` capability. -/
theorem C4_london_weighting_uplift (s : BaseContractStrategy) (hours_worked : ℚ) :
    calculate_gross_pay (BaseContractStrategy.londonWeighting s) hours_worked
      = 1.2 * calculate_gross_pay s hours_worked := by
  simp only [calculate_gross_pay]
  ring

/-- Errors of the full resolver are exactly the errors of its first
stage: the London-weighting wrapping step never fails. -/
theorem create_strategy_error_iff (employee : Employee) (contract : Contract)
    (msg : String) :
    create_contract_strategy_for_employee employee contract = Except.error msg ↔
      resolve_base_strategy employee contract = Except.error msg := by
  unfold create_contract_strategy_for_employee
  cases h : resolve_base_strategy employee contract with
  | error m => simp [h]
  | ok strategy =>
      simp only [h]
      split <;> simp

/-- Claim C5: strategy resolution fails (with a human-readable reason) if
and only if the employee's uppercased contract type is not one of
SALARIED, PART_TIME, HOURLY (then with an "unknown contract type" reason),
or a field required by that type is absent (SALARIED: base_salary;
PART_TIME: any of base_salary, hourly_rate, contract_hours; HOURLY:
hourly_rate); otherwise a ready strategy is returned. The resolver is a
pure function of the employee and contract alone: it takes no storage. -/
theorem C5_resolver_validation (employee : Employee) (contract : Contract) :
    ((∃ msg, create_contract_strategy_for_employee employee contract
        = Except.error msg) ↔
      (strUpper employee.contract_type ∉ (["SALARIED", "PART_TIME", "HOURLY"] : List String)
        ∨ (strUpper employee.contract_type = "SALARIED" ∧ contract.base_salary = none)
        ∨ (strUpper employee.contract_type = "PART_TIME"
            ∧ (contract.base_salary = none ∨ contract.hourly_rate = none
                ∨ contract.contract_hours = none))
        ∨ (strUpper employee.contract_type = "HOURLY" ∧ contract.hourly_rate = none)))
    ∧ (strUpper employee.contract_type ∉ (["SALARIED", "PART_TIME", "HOURLY"] : List String) →
        create_contract_strategy_for_employee employee contract
          = Except.error ("Unknown contract type: " ++ strUpper employee.contract_type)) := by
  constructor
  · simp only [create_strategy_error_iff]
    unfold resolve_base_strategy
    by_cases h1 : strUpper employee.contract_type = "SALARIED"
    · cases hb : contract.base_salary <;> simp [h1, hb]
    · by_cases h2 : strUpper employee.contract_type = "PART_TIME"
      · cases hb : contract.base_salary <;>
          cases hr : contract.hourly_rate <;>
          cases hc : contract.contract_hours <;>
          simp [h1, h2, hb, hr, hc]
      · by_cases h3 : strUpper employee.contract_type = "HOURLY"
        · cases hr : contract.hourly_rate <;> simp [h1, h2, h3, hr]
        · simp [h1, h2, h3]
  · intro hmem
    simp only [List.mem_cons, List.mem_singleton, List.not_mem_nil, or_false,
      not_or] at hmem
    rw [create_strategy_error_iff]
    unfold resolve_base_strategy
    simp [hmem.1, hmem.2.1, hmem.2.2]

/-- Witness for C5: resolving the CONTRACTOR employee fails with the
unknown-contract-type reason. -/
theorem C5_resolver_validation_witness :
    create_contract_strategy_for_employee contractorEmployee salariedContract
      = Except.error
          ("Unknown contract type: " ++ strUpper contractorEmployee.contract_type) :=
  (C5_resolver_validation contractorEmployee salariedContract).2 (by decide)

/-- Claim C6: for every employee_id not present in storage,
run_payroll_for_employee fails with the not-found error and the persisted
state is unchanged: no PayrollRun record is inserted. -/
theorem C6_not_found_no_insert (s : Storage) (employee_id : Nat) (hours_worked : ℚ)
    (pay_period_start pay_period_end : Nat)
    (habs : employee_get s employee_id = none) :
    run_payroll_for_employee s employee_id hours_worked pay_period_start pay_period_end
      = (Except.error ("Employee with id " ++ toString employee_id ++ " not found."),
          s) := by
  unfold run_payroll_for_employee
  rw [habs]

/-- Witness for C6: empty storage, employee_id 1. -/
theorem C6_not_found_no_insert_witness :
    employee_get { employees := [], contracts := [], payroll_runs := [] } 1 = none
    ∧ run_payroll_for_employee
        { employees := [], contracts := [], payroll_runs := [] } 1 40 100 130
      = (Except.error ("Employee with id " ++ toString 1 ++ " not found."),
          { employees := [], contracts := [], payroll_runs := [] }) :=
  ⟨rfl, C6_not_found_no_insert
    { employees := [], contracts := [], payroll_runs := [] } 1 40 100 130 rfl⟩

/-- Unfolding lemma: `pickLatest` on an empty accumulator takes the new row. -/
theorem pickLatest_none_eq (c : Contract) : pickLatest none c = some c := rfl

/-- Unfolding lemma: `pickLatest` on a held row compares `effective_from` fields. -/
theorem pickLatest_some_eq (best c : Contract) :
    pickLatest (some best) c
      = if best.effective_from < c.effective_from then some c else some best := rfl

/-- Totality: `pickLatest` never yields `none`. -/
theorem pickLatest_isSome (acc : Option Contract) (c : Contract) :
    ∃ b, pickLatest acc c = some b := by
  cases acc with
  | none => exact ⟨c, rfl⟩
  | some best =>
      rw [pickLatest_some_eq]
      split
      · exact ⟨c, rfl⟩
      · exact ⟨best, rfl⟩

/-- A contract produced by folding `pickLatest` comes from the
accumulator or the list. -/
theorem foldl_pickLatest_mem (l : List Contract) :
    ∀ (acc : Option Contract) (c : Contract),
      l.foldl pickLatest acc = some c → acc = some c ∨ c ∈ l := by
  induction l with
  | nil => exact fun acc c h => Or.inl h
  | cons x xs ih =>
      intro acc c h
      rcases ih (pickLatest acc x) c h with h' | h'
      · cases acc with
        | none =>
            refine Or.inr (List.mem_cons.mpr (Or.inl ?_))
            exact (Option.some.inj h').symm
        | some best =>
            rw [pickLatest_some_eq] at h'
            split at h'
            · exact Or.inr (List.mem_cons.mpr (Or.inl (Option.some.inj h').symm))
            · exact Or.inl h'
      · exact Or.inr (List.mem_cons_of_mem _ h')

/-- A contract produced by folding `pickLatest` dominates, by
`effective_from`, the accumulator and every element of the list. -/
theorem foldl_pickLatest_le (l : List Contract) :
    ∀ (acc : Option Contract) (c : Contract),
      l.foldl pickLatest acc = some c →
      (∀ b, acc = some b → b.effective_from ≤ c.effective_from)
      ∧ ∀ c' ∈ l, c'.effective_from ≤ c.effective_from := by
  induction l with
  | nil =>
      intro acc c h
      refine ⟨fun b hb => ?_, by simp⟩
      rw [hb] at h
      rw [Option.some.inj h]
  | cons x xs ih =>
      intro acc c h
      obtain ⟨hacc, hxs⟩ := ih (pickLatest acc x) c h
      have hx : x.effective_from ≤ c.effective_from
          ∧ ∀ b, acc = some b → b.effective_from ≤ c.effective_from := by
        cases acc with
        | none =>
            refine ⟨hacc x rfl, fun b hb => ?_⟩
            exact absurd hb (by simp)
        | some best =>
            by_cases hlt : best.effective_from < x.effective_from
            · have hxc := hacc x (by simp [pickLatest, hlt])
              refine ⟨hxc, fun b hb => ?_⟩
              rw [← Option.some.inj hb]
              exact le_of_lt (lt_of_lt_of_le hlt hxc)
            · have hbc := hacc best (by simp [pickLatest, hlt])
              refine ⟨le_trans (not_lt.mp hlt) hbc, fun b hb => ?_⟩
              rw [← Option.some.inj hb]
              exact hbc
      refine ⟨hx.2, fun c' hc' => ?_⟩
      rcases List.mem_cons.mp hc' with rfl | h'
      · exact hx.1
      · exact hxs c' h'

/-- Folding `pickLatest` yields `none` only from an empty accumulator and
an empty list. -/
theorem foldl_pickLatest_eq_none (l : List Contract) :
    ∀ acc : Option Contract, l.foldl pickLatest acc = none → acc = none ∧ l = [] := by
  induction l with
  | nil => exact fun acc h => ⟨h, rfl⟩
  | cons x xs ih =>
      intro acc h
      obtain ⟨h1, h2⟩ := ih (pickLatest acc x) h
      obtain ⟨b, hb⟩ := pickLatest_isSome acc x
      rw [hb] at h1
      cases h1

/-- Folding `pickLatest` commutes with a map that preserves
`effective_from`. -/
theorem foldl_pickLatest_map (g : Contract → Contract)
    (hg : ∀ c, (g c).effective_from = c.effective_from) (l : List Contract) :
    ∀ acc : Option Contract,
      (l.map g).foldl pickLatest (Option.map g acc)
        = Option.map g (l.foldl pickLatest acc) := by
  induction l with
  | nil => intro acc; rfl
  | cons x xs ih =>
      intro acc
      have hstep : pickLatest (Option.map g acc) (g x)
          = Option.map g (pickLatest acc x) := by
        cases acc with
        | none => rfl
        | some best =>
            show pickLatest (some (g best)) (g x) = _
            rw [pickLatest_some_eq, hg, hg, pickLatest_some_eq,
              apply_ite (Option.map g)]
            split <;> rfl
      simp only [List.map_cons, List.foldl_cons, hstep, ih]

/-- Claim C7, counterexample: `get_active_for_employee` takes no run date
and does not restrict to contracts effective at or before the run. With a
run in period ending at date 50, employee 1 holding a contract effective
from date 10 (at or before the run) and one effective from date 100
(after the run), the repository selects the date-100 contract, not the
date-10 one the claim prescribes. -/
theorem C7_counterexample :
    get_active_for_employee twoContractStore 1 = some contractNew
    ∧ get_active_for_employee twoContractStore 1 ≠ some contractOld
    ∧ contractOld ∈ twoContractStore.contracts ∧ contractOld.employee_id = 1
    ∧ contractOld.effective_from ≤ 50 ∧ ¬ (contractNew.effective_from ≤ 50) := by
  refine ⟨rfl, ?_, ?_, rfl, ?_, ?_⟩ <;> decide

/-- Claim C7, amended: the active contract selected for an employee is one
of that employee's stored contracts with maximal `effective_from` among
all of them, with no comparison against the run date (a contract effective
only in the future is still selected); it is absent exactly when the
employee has no contracts; and the `effective_to` field plays no role in
the selection. -/
theorem C7_active_contract_selection (s : Storage) (employee_id : Nat) :
    (∀ c, get_active_for_employee s employee_id = some c →
      c ∈ s.contracts ∧ c.employee_id = employee_id
        ∧ ∀ c' ∈ s.contracts, c'.employee_id = employee_id →
            c'.effective_from ≤ c.effective_from)
    ∧ (get_active_for_employee s employee_id = none ↔
        ∀ c' ∈ s.contracts, c'.employee_id ≠ employee_id)
    ∧ ∀ f : Contract → Option Nat,
        get_active_for_employee
          { s with contracts :=
              s.contracts.map (fun c => { c with effective_to := f c }) }
          employee_id
        = Option.map (fun c => { c with effective_to := f c })
            (get_active_for_employee s employee_id) := by
  refine ⟨?_, ?_, ?_⟩
  · intro c hc
    unfold get_active_for_employee at hc
    have hmem := foldl_pickLatest_mem _ none c hc
    have hle := foldl_pickLatest_le _ none c hc
    simp only [false_or, reduceCtorEq] at hmem
    have hcf := List.mem_filter.mp hmem
    refine ⟨hcf.1, of_decide_eq_true hcf.2, fun c' hc' he' => ?_⟩
    exact hle.2 c' (List.mem_filter.mpr ⟨hc', decide_eq_true he'⟩)
  · unfold get_active_for_employee
    constructor
    · intro hnone c' hc' he'
      have := (foldl_pickLatest_eq_none _ none hnone).2
      have : c' ∈ (s.contracts.filter
          (fun c => decide (c.employee_id = employee_id))) :=
        List.mem_filter.mpr ⟨hc', decide_eq_true he'⟩
      simp_all
    · intro hall
      have : s.contracts.filter (fun c => decide (c.employee_id = employee_id)) = [] := by
        rw [List.filter_eq_nil_iff]
        intro c' hc'
        simpa using hall c' hc'
      rw [this]
      rfl
  · intro f
    unfold get_active_for_employee
    have hfil : (s.contracts.map (fun c => { c with effective_to := f c })).filter
          (fun c => decide (c.employee_id = employee_id))
        = (s.contracts.filter (fun c => decide (c.employee_id = employee_id))).map
            (fun c => { c with effective_to := f c }) := by
      rw [List.filter_map]
      rfl
    rw [hfil]
    exact foldl_pickLatest_map (fun c => { c with effective_to := f c })
      (fun c => rfl)
      (s.contracts.filter (fun c => decide (c.employee_id = employee_id))) none

/-- Witness for C7 at a two-contract store: the selected contract is the
one with the larger effective_from, belongs to the employee, and
dominates the other. -/
theorem C7_active_contract_selection_witness :
    contractNew ∈ twoContractStore.contracts
    ∧ contractNew.employee_id = 1
    ∧ ∀ c' ∈ twoContractStore.contracts, c'.employee_id = 1 →
        c'.effective_from ≤ contractNew.effective_from :=
  (C7_active_contract_selection twoContractStore 1).1 contractNew (by decide)

/-- The first resolution stage only builds bare strategies: it never
wraps in the London weighting decorator. -/
theorem resolve_base_not_weighted (employee : Employee) (contract : Contract)
    (st : BaseContractStrategy)
    (h : resolve_base_strategy employee contract = Except.ok st) :
    isWeighted st = false := by
  unfold resolve_base_strategy at h
  split_ifs at h <;> (try split at h) <;> cases h <;> simp [isWeighted]

/-- A successfully resolved strategy is wrapped in the London weighting
decorator exactly when the employee's uppercased branch is "LONDON". -/
theorem create_strategy_weighted_iff (employee : Employee) (contract : Contract)
    (st : BaseContractStrategy)
    (h : create_contract_strategy_for_employee employee contract = Except.ok st) :
    isWeighted st = decide (strUpper employee.branch = "LONDON") := by
  unfold create_contract_strategy_for_employee at h
  cases hr : resolve_base_strategy employee contract with
  | error m => rw [hr] at h; cases h
  | ok base =>
      simp only [hr] at h
      by_cases hb : strUpper employee.branch = "LONDON"
      · rw [if_pos hb] at h
        rw [← Except.ok.inj h]
        simp [hb, isWeighted]
      · rw [if_neg hb] at h
        rw [← Except.ok.inj h]
        simp [hb, resolve_base_not_weighted employee contract base hr]

/-- Claim C8: for every successful run_payroll_for_employee call, the
london_weighting_applied flag on the persisted PayrollRun is true exactly
when the resolver wrapped the strategy in the weighting decorator, which
in turn holds exactly when the employee's uppercased branch equals
"LONDON": the flag and the applied uplift never diverge. -/
theorem C8_weighting_flag_consistent (s : Storage) (employee_id : Nat)
    (hours_worked : ℚ) (pay_period_start pay_period_end : Nat)
    (run : PayrollRun) (s' : Storage)
    (hrun : run_payroll_for_employee s employee_id hours_worked
        pay_period_start pay_period_end = (Except.ok run, s')) :
    ∃ employee contract strategy,
      employee_get s employee_id = some employee
      ∧ get_active_for_employee s employee_id = some contract
      ∧ create_contract_strategy_for_employee employee contract
          = Except.ok strategy
      ∧ run.london_weighting_applied = isWeighted strategy
      ∧ (run.london_weighting_applied = true ↔
          strUpper employee.branch = "LONDON")
      ∧ s'.payroll_runs = s.payroll_runs ++ [run] := by
  unfold run_payroll_for_employee at hrun
  cases he : employee_get s employee_id with
  | none => rw [he] at hrun; simp at hrun
  | some employee =>
      simp only [he] at hrun
      cases hc : get_active_for_employee s employee_id with
      | none => rw [hc] at hrun; simp at hrun
      | some contract =>
          simp only [hc] at hrun
          cases hs : create_contract_strategy_for_employee employee contract with
          | error m => rw [hs] at hrun; simp at hrun
          | ok strategy =>
              simp only [hs, payroll_run_add, Prod.mk.injEq,
                Except.ok.injEq] at hrun
              refine ⟨employee, contract, strategy, rfl, rfl, hs, ?_, ?_, ?_⟩
              · rw [← hrun.1]
                exact (create_strategy_weighted_iff employee contract strategy hs).symm
              · rw [← hrun.1]
                simp
              · rw [← hrun.2, ← hrun.1]

/-- Witness for C8: a successful end-to-end run for the London salaried
employee, with the flag set and the strategy wrapped. -/
theorem C8_weighting_flag_consistent_witness :
    ∃ employee contract strategy,
      employee_get londonStore 1 = some employee
      ∧ get_active_for_employee londonStore 1 = some contract
      ∧ create_contract_strategy_for_employee employee contract
          = Except.ok strategy
      ∧ londonRun.london_weighting_applied = isWeighted strategy
      ∧ (londonRun.london_weighting_applied = true ↔
          strUpper employee.branch = "LONDON")
      ∧ londonStoreAfter.payroll_runs = londonStore.payroll_runs ++ [londonRun] :=
  C8_weighting_flag_consistent londonStore 1 0 100 130 londonRun
    londonStoreAfter rfl

/-- Claim C9, counterexample: the claim admits hourly_rate = 0 (all
fields non-negative), but then part-time gross pay is NOT strictly
increasing beyond contract_hours: with base 100, rate 0, contract_hours
10, the hours 11 and 12 both exceed contract_hours yet give equal pay. -/
theorem C9_counterexample :
    (0 : ℚ) ≤ 100 ∧ (0 : ℚ) ≤ 0 ∧ (0 : ℚ) ≤ 10
    ∧ (10 : ℚ) < 11 ∧ (11 : ℚ) < 12
    ∧ calculate_gross_pay (BaseContractStrategy.partTime 100 0 10) 11
        = calculate_gross_pay (BaseContractStrategy.partTime 100 0 10) 12 := by
  norm_num [calculate_gross_pay]

/-- Claim C9, amended: for every part-time contract with non-negative
fields, gross pay as a function of hours_worked is constant and equal to
base_salary for hours_worked ≤ contract_hours, non-decreasing everywhere,
and strictly increasing beyond contract_hours provided hourly_rate is
strictly positive (when hourly_rate = 0 it is constant everywhere, so
strictness fails). -/
theorem C9_part_time_monotone (base_salary hourly_rate contract_hours : ℚ)
    (hb : 0 ≤ base_salary) (hr : 0 ≤ hourly_rate) (hc : 0 ≤ contract_hours) :
    (∀ h ≤ contract_hours,
      calculate_gross_pay
        (BaseContractStrategy.partTime base_salary hourly_rate contract_hours) h
        = base_salary)
    ∧ (∀ h1 h2 : ℚ, h1 ≤ h2 →
        calculate_gross_pay
          (BaseContractStrategy.partTime base_salary hourly_rate contract_hours) h1
        ≤ calculate_gross_pay
            (BaseContractStrategy.partTime base_salary hourly_rate contract_hours) h2)
    ∧ (0 < hourly_rate → ∀ h1 h2 : ℚ, contract_hours < h1 → h1 < h2 →
        calculate_gross_pay
          (BaseContractStrategy.partTime base_salary hourly_rate contract_hours) h1
        < calculate_gross_pay
            (BaseContractStrategy.partTime base_salary hourly_rate contract_hours) h2) := by
  refine ⟨?_, ?_, ?_⟩
  · intro h hh
    simp only [calculate_gross_pay]
    rw [max_eq_left (by linarith : h - contract_hours ≤ 0)]
    ring
  · intro h1 h2 h12
    simp only [calculate_gross_pay]
    have hm : max 0 (h1 - contract_hours) ≤ max 0 (h2 - contract_hours) :=
      max_le_max le_rfl (by linarith)
    have := mul_le_mul_of_nonneg_right hm hr
    linarith
  · intro hrpos h1 h2 hgt h12
    simp only [calculate_gross_pay]
    rw [max_eq_right (by linarith : (0 : ℚ) ≤ h1 - contract_hours),
      max_eq_right (by linarith : (0 : ℚ) ≤ h2 - contract_hours)]
    have := mul_lt_mul_of_pos_right
      (show h1 - contract_hours < h2 - contract_hours by linarith) hrpos
    linarith

/-- Witness for C9 at base 100, rate 2, contract_hours 10. -/
theorem C9_part_time_monotone_witness :
    (0 : ℚ) ≤ 100 ∧ (0 : ℚ) ≤ 2 ∧ (0 : ℚ) ≤ 10
    ∧ ((∀ h ≤ (10 : ℚ),
        calculate_gross_pay (BaseContractStrategy.partTime 100 2 10) h = 100)
      ∧ (∀ h1 h2 : ℚ, h1 ≤ h2 →
          calculate_gross_pay (BaseContractStrategy.partTime 100 2 10) h1
          ≤ calculate_gross_pay (BaseContractStrategy.partTime 100 2 10) h2)
      ∧ ((0 : ℚ) < 2 → ∀ h1 h2 : ℚ, (10 : ℚ) < h1 → h1 < h2 →
          calculate_gross_pay (BaseContractStrategy.partTime 100 2 10) h1
          < calculate_gross_pay (BaseContractStrategy.partTime 100 2 10) h2)) :=
  ⟨by norm_num, by norm_num, by norm_num,
    C9_part_time_monotone 100 2 10 (by norm_num) (by norm_num) (by norm_num)⟩

/-- Claim C10: negative hours_worked is accepted without error throughout
the core: for hours_worked < 0, SalariedStrategy and PartTimeStrategy
(with non-negative contract_hours) return exactly base_salary,
HourlyStrategy returns hours_worked * hourly_rate (negative whenever
hourly_rate > 0), and run_payroll_for_employee, given an existing
employee with a valid active contract, succeeds and persists a PayrollRun
carrying the negative hours and the resulting gross pay. -/
theorem C10_negative_hours_accepted
    (base_salary hourly_rate contract_hours hw : ℚ) (s : Storage)
    (employee_id pay_period_start pay_period_end : Nat)
    (employee : Employee) (contract : Contract)
    (strategy : BaseContractStrategy)
    (hneg : hw < 0) (hch : 0 ≤ contract_hours)
    (he : employee_get s employee_id = some employee)
    (hac : get_active_for_employee s employee_id = some contract)
    (hs : create_contract_strategy_for_employee employee contract
        = Except.ok strategy) :
    calculate_gross_pay (BaseContractStrategy.salaried base_salary) hw
      = base_salary
    ∧ calculate_gross_pay
        (BaseContractStrategy.partTime base_salary hourly_rate contract_hours) hw
      = base_salary
    ∧ calculate_gross_pay (BaseContractStrategy.hourly hourly_rate) hw
      = hw * hourly_rate
    ∧ (0 < hourly_rate →
        calculate_gross_pay (BaseContractStrategy.hourly hourly_rate) hw < 0)
    ∧ ∃ run,
        run_payroll_for_employee s employee_id hw pay_period_start pay_period_end
          = (Except.ok run, { s with payroll_runs := s.payroll_runs ++ [run] })
        ∧ run.hours_worked = hw
        ∧ run.gross_pay = calculate_gross_pay strategy hw := by
  have hhourly : calculate_gross_pay (BaseContractStrategy.hourly hourly_rate) hw
      = hw * hourly_rate := by
    simp only [calculate_gross_pay]
    rw [min_eq_left (by linarith : hw ≤ 37),
      max_eq_left (by linarith : hw - 37 ≤ 0)]
    ring
  refine ⟨rfl, ?_, hhourly, ?_, ?_⟩
  · simp only [calculate_gross_pay]
    rw [max_eq_left (by linarith : hw - contract_hours ≤ 0)]
    ring
  · intro hrpos
    rw [hhourly]
    exact mul_neg_of_neg_of_pos hneg hrpos
  · unfold run_payroll_for_employee
    simp only [he, hac, hs, payroll_run_add]
    exact ⟨_, rfl, rfl, rfl⟩

/-- Witness for C10: a run of -5 hours for the Yeovil hourly employee. -/
theorem C10_negative_hours_accepted_witness :
    (-5 : ℚ) < 0 ∧ (0 : ℚ) ≤ 20
    ∧ (calculate_gross_pay (BaseContractStrategy.salaried 100) (-5) = 100
      ∧ calculate_gross_pay (BaseContractStrategy.partTime 100 10 20) (-5) = 100
      ∧ calculate_gross_pay (BaseContractStrategy.hourly 10) (-5) = (-5) * 10
      ∧ ((0 : ℚ) < 10 →
          calculate_gross_pay (BaseContractStrategy.hourly 10) (-5) < 0)
      ∧ ∃ run,
          run_payroll_for_employee yeovilStore 2 (-5) 100 130
            = (Except.ok run,
                { yeovilStore with
                    payroll_runs := yeovilStore.payroll_runs ++ [run] })
          ∧ run.hours_worked = -5
          ∧ run.gross_pay
              = calculate_gross_pay (BaseContractStrategy.hourly 10) (-5)) :=
  ⟨by norm_num, by norm_num,
    C10_negative_hours_accepted 100 10 20 (-5) yeovilStore 2 100 130
      yeovilEmployee hourlyContract (BaseContractStrategy.hourly 10)
      (by norm_num) (by norm_num) rfl rfl rfl⟩

end Payroll
